import Mathlib

/-!
Verification development for the operations-registry backend.

The embedding covers:
* the registry synchronizer of `amplify-lambda-ops/service/core.py`
  (`write_ops`, `delete_op`, `fetch_user_ops`) over an abstract
  (owner, tag) → list-of-records partition store;
* the CLI registration path of `tools/ops.py` (`write_ops` over dumped
  `OperationModel` values);
* the static declaration scanner of `tools/ops.py`
  (`extract_ops_from_file` and its helpers over a shallow Python-AST model).

DynamoDB is modelled as a total map from (user, tag) keys to an optional
stored list (`none` = no item for that key); `table.query` on the full
primary key returns at most one item, so a partition is one optional list.
-/

set_option autoImplicit false

namespace OpsRegistry

/-- A raw operation record as handled by `service/core.py`: a JSON dict.
Only the keys the synchronizer reads are modelled.  The `tags` key may be
absent from a raw dict (`op.get("tags", ...)`), hence `Option`. -/
structure Op where
  id : String
  name : String
  description : String
  method : String
  url : String
  tags : Option (List String)
  includeAccessToken : Bool
deriving DecidableEq

/-- The partition store: (user, tag) → optional stored list of records. -/
abbrev Store := String → String → Option (List Op)

/-- Write one (user, tag) key of the store (`put_item` / `update_item`,
or `delete_item` when the new value is `none`). -/
def setPart (s : Store) (o t : String) (v : Option (List Op)) : Store :=
  fun o' t' => if o' = o ∧ t' = t then v else s o' t'

/-- The inner loop of `write_ops` over one partition list: scan for the
first entry whose `id` equals the new record's `id`; replace it in place
and stop, otherwise append at the end
(`core.py` lines 146-153, `tools/ops.py` lines 339-350). -/
def upsertList (p : Op) : List Op → List Op
  | [] => [p]
  | e :: rest => if e.id = p.id then p :: rest else e :: upsertList p rest

/-- The per-record mutation `write_ops` performs before fanning out
(`core.py` lines 128-131): `op["includeAccessToken"] = True`, and
`operation_tags = op.get("tags", ["default"]); operation_tags.append("all")`.
When the `tags` key is present, `operation_tags` aliases `op["tags"]`, so
the stored record's own tags list gains `"all"`; when absent, the fallback
`["default"]` is a fresh list and the record keeps no tags key. -/
def processOp (r : Op) : Op :=
  { r with includeAccessToken := true, tags := r.tags.map (fun ts => ts ++ ["all"]) }

/-- The tag list `write_ops` fans out over for one record:
`op.get("tags", ["default"])` with `"all"` appended. -/
def opTags (r : Op) : List String :=
  r.tags.getD ["default"] ++ ["all"]

/-- One fanout step of `write_ops` (`core.py` lines 133-173): query the
(user, tag) key; if an item exists, replace-or-append into its `ops` list
and write it back; otherwise put a fresh item holding only this record. -/
def upsertTag (owner tag : String) (p : Op) (s : Store) : Store :=
  match s owner tag with
  | some l => setPart s owner tag (some (upsertList p l))
  | none => setPart s owner tag (some [p])

/-- The per-record body of `write_ops` (`core.py` lines 123-173): process
the record, then fan it out over every tag in `opTags`. -/
def upsertRecord (owner : String) (r : Op) (s : Store) : Store :=
  (opTags r).foldl (fun acc t => upsertTag owner t (processOp r) acc) s

/-- The `write_ops` endpoint (`core.py` lines 107-178).  `current_user` is
accepted but unused: the handler sets `user = "system"  # for now` and every
record is registered under owner `"system"`.  (The table-name configuration
check aborts before any store access and is outside the store model.) -/
def write_ops_endpoint (current_user : String) (ops : List Op) (s : Store) : Store :=
  ops.foldl (fun acc op => upsertRecord "system" op acc) s

/-- The exact-triple test of `delete_op` (`core.py` lines 214-218): a stored
record matches the reference only when `id`, `name` and `url` all agree. -/
def tripleMatches (e ref : Op) : Bool :=
  e.id == ref.id && e.name == ref.name && e.url == ref.url

/-- One fanout step of `delete_op` (`core.py` lines 203-239): query the
(user, tag) key; keep only records that do not match the reference on all
three of (id, name, url); if the list changed, write it back when non-empty
or delete the whole item when empty; if nothing changed, leave the store
untouched. -/
def deleteTag (owner tag : String) (ref : Op) (s : Store) : Store :=
  match s owner tag with
  | some l =>
    let filtered := l.filter (fun e => !(tripleMatches e ref))
    if filtered.length ≠ l.length then
      if filtered.isEmpty then setPart s owner tag none
      else setPart s owner tag (some filtered)
    else s
  | none => s

/-- The effective tag set of a delete reference (`core.py` lines 184-186):
`tags = op.get("tags", ["default"])`, then `"all"` is appended when missing.
When the `tags` key is present the local name aliases `op["tags"]`, so the
loop `for tag in op["tags"]` iterates exactly this list. -/
def effTags (ts : List String) : List String :=
  if "all" ∈ ts then ts else ts ++ ["all"]

/-- The `delete_op` handler body (`core.py` lines 181-246).  The reference
dict must carry a `tags` key: with it absent, the `["default"]` fallback is
bound to a fresh local list, and the loop header `for tag in op["tags"]`
(line 200) raises `KeyError`.  The owner is hardcoded to `"system"`. -/
def delete_op (ref : Op) (s : Store) : Except String Store :=
  match ref.tags with
  | some ts =>
    Except.ok ((effTags ts).foldl (fun acc t => deleteTag "system" t ref acc) s)
  | none => Except.error "KeyError: tags"

/-- The `delete_op` endpoint: `current_user` is accepted but unused
(`user = "system"`, `core.py` line 187). -/
def delete_op_endpoint (current_user : String) (ref : Op) (s : Store) : Except String Store :=
  delete_op ref s

/-- `fetch_user_ops` (`core.py` lines 47-104).  `query u t` models the
DynamoDB query plus deserialization for the (u, t) partition (absent
partitions give `Except.ok []`); a thrown store error is `Except.error`.
The handler returns a success dict wrapping the data list, modelled as the
list; an uncaught exception is the error case.  For a non-`"system"` caller
the system partition is fetched through a recursive call and appended after
the caller's own records; any error from that fallback fetch is swallowed
(lines 91-98). -/
def fetch_user_ops (query : String → String → Except String (List Op))
    (current_user tag : String) : Except String (List Op) :=
  match query current_user tag with
  | Except.error e => Except.error e
  | Except.ok data =>
    if h : current_user ≠ "system" then
      match fetch_user_ops query "system" tag with
      | Except.ok sys => Except.ok (data ++ sys)
      | Except.error _ => Except.ok data
    else Except.ok data
termination_by (if current_user = "system" then 0 else 1)
decreasing_by simp_all

/-- `ParamModel` from `tools/ops.py` (pydantic). -/
structure ParamModel where
  description : String
  name : String
deriving DecidableEq

/-- `OperationModel` from `tools/ops.py` (pydantic).  Field order follows the
model; the optional opaque `schema` field (default `None`) is never read by
the code under verification and is not modelled.  `includeAccessToken` is a
plain field; the scanner always passes `True`. -/
structure OperationModel where
  description : String
  id : String
  includeAccessToken : Bool
  method : String
  name : String
  tags : List String
  params : List ParamModel
  type : String
  url : String
deriving DecidableEq

/-- Store of dumped `OperationModel` dicts, as written by `tools/ops.py`. -/
abbrev StoreT := String → String → Option (List OperationModel)

/-- Write one (user, tag) key of a `StoreT`. -/
def setPartT (s : StoreT) (o t : String) (v : Option (List OperationModel)) : StoreT :=
  fun o' t' => if o' = o ∧ t' = t then v else s o' t'

/-- One fanout step of `tools/ops.py write_ops` (lines 326-376).  On the
replace path (an existing record with the same `id`), line 344 evaluates
`json.dumps(op_dict)`, but `json` is never imported in `tools/ops.py`: the
statement raises `NameError` before any write, and no handler in `write_ops`
catches it.  On the append path and the fresh-item path no such call runs. -/
def upsertTagTools (currentUser tag : String) (p : OperationModel) (s : StoreT) :
    Except String StoreT :=
  match s currentUser tag with
  | some l =>
    if l.any (fun e => e.id == p.id) then
      Except.error "NameError: name json is not defined"
    else Except.ok (setPartT s currentUser tag (some (l ++ [p])))
  | none => Except.ok (setPartT s currentUser tag (some [p]))

/-- Sequential fanout of one record over its tag list; the first raised
exception aborts the whole call. -/
def fanoutTools (currentUser : String) (p : OperationModel) :
    List String → StoreT → Except String StoreT
  | [], s => Except.ok s
  | t :: ts, s =>
    match upsertTagTools currentUser t p s with
    | Except.ok s' => fanoutTools currentUser p ts s'
    | Except.error e => Except.error e

/-- `tools/ops.py write_ops` (lines 293-381), per-record loop.  For each
dumped record, `operation_tags = op_dict.get("tags", ["default"])` aliases
`op_dict["tags"]` (the model field is always present), so appending `"all"`
both extends the fanout list and lands in the stored record's tags. -/
def write_ops_tools (currentUser : String) (ops : List OperationModel) (s : StoreT) :
    Except String StoreT :=
  match ops with
  | [] => Except.ok s
  | op :: rest =>
    match fanoutTools currentUser { op with tags := op.tags ++ ["all"] }
        (op.tags ++ ["all"]) s with
    | Except.ok s' => write_ops_tools currentUser rest s'
    | Except.error e => Except.error e

/-- The raw-dict (wire) form of a dumped `OperationModel`, as the service's
`write_ops` would receive it: every model field present, `tags` as a list. -/
def opmToRaw (m : OperationModel) : Op :=
  { id := m.id, name := m.name, description := m.description, method := m.method,
    url := m.url, tags := some m.tags, includeAccessToken := m.includeAccessToken }

/-! ## Declaration scanner (`tools/ops.py`)

A shallow model of the Python AST fragments the scanner inspects.  The
interpreter is assumed to be CPython 3.8–3.11, where string literals parse
as `ast.Constant`, `isinstance(x, ast.Str)` holds exactly for string
constants, and `.s` is the deprecated alias for a string constant's value.
-/

/-- A Python literal constant (`ast.Constant` values the scanner meets). -/
inductive PyConst where
  | str (s : String)
  | int (n : Int)
  | bool (b : Bool)
  | noneConst
deriving DecidableEq

/-- The AST expression shapes the scanner distinguishes.  `dict` carries the
parallel `keys`/`values` lists of `ast.Dict`; `name` is any expression that
is none of constant, dict or list (e.g. an `ast.Name` reference), rendered
only by its textual form and never evaluated. -/
inductive PyExpr where
  | const (c : PyConst)
  | dict (keys : List PyExpr) (values : List PyExpr)
  | list (elts : List PyExpr)
  | name (id : String)

/-- An extracted Python value (what the literal extraction produces). -/
inductive PyVal where
  | str (s : String)
  | int (n : Int)
  | bool (b : Bool)
  | noneVal
  | dict (entries : List (PyConst × PyVal))
  | list (elts : List PyVal)

/-- `Constant.value` as an extracted value. -/
def constToVal : PyConst → PyVal
  | .str s => .str s
  | .int n => .int n
  | .bool b => .bool b
  | .noneConst => .noneVal

/-- The `.s` attribute access used on keyword values (`op_kwargs[...].s`)
and inside `extract_dict`: defined for string constants, raising
`AttributeError` otherwise.  (On a non-string constant, CPython ≤ 3.11
returns the non-string value instead, which then fails pydantic's string
validation; both channels drop the candidate, modelled as the error
channel.) -/
def sAttr : PyExpr → Except String String
  | .const (.str s) => Except.ok s
  | _ => Except.error "AttributeError: s"

/-- Insertion into a Python dict built by comprehension: an existing key
keeps its position but takes the new value, a new key is appended. -/
def pyDictInsert {α : Type} : List (String × α) → String × α → List (String × α)
  | [], kv => [kv]
  | (k, v) :: rest, kv =>
    if k = kv.fst then (k, kv.snd) :: rest else (k, v) :: pyDictInsert rest kv

/-- A Python dict literal/comprehension as an ordered association list with
unique keys (insertion order, last value wins). -/
def pyDict {α : Type} (l : List (String × α)) : List (String × α) :=
  l.foldl pyDictInsert []

/-- Dict lookup (`d[k]` / `d.get(k)`). -/
def dictGet {α : Type} (d : List (String × α)) (k : String) : Option α :=
  (d.find? (fun kv => kv.fst == k)).map Prod.snd

/-- The zipped body of `extract_dict` (line 123): `key.s` and `value.s` for
each entry, so any non-string-constant key or value raises. -/
def extractStrPairs : List (PyExpr × PyExpr) → Except String (List (String × String))
  | [] => Except.ok []
  | (k, v) :: rest => do
    let ks ← sAttr k
    let vs ← sAttr v
    let others ← extractStrPairs rest
    Except.ok ((ks, vs) :: others)

/-- `extract_dict` (`tools/ops.py` lines 121-123):
`{key.s: value.s for key, value in zip(node.keys, node.values)}`.
A non-`ast.Dict` argument has no `keys` attribute and raises. -/
def extract_dict : PyExpr → Except String (List (String × String))
  | .dict ks vs => (extractStrPairs (ks.zip vs)).map pyDict
  | _ => Except.error "AttributeError: keys"

/-- The list comprehension inside `extract_dict_from_ast` (lines 95-97):
`x.value if isinstance(x, ast.Constant) else x.s` — a non-constant element
raises `AttributeError`. -/
def extractListVals : List PyExpr → Except String (List PyVal)
  | [] => Except.ok []
  | x :: rest => do
    let v ← match x with
      | .const c => Except.ok (constToVal c)
      | _ => (Except.error "AttributeError: s" : Except String PyVal)
    let vs ← extractListVals rest
    Except.ok (v :: vs)

mutual

/-- `extract_dict_from_ast` (`tools/ops.py` lines 79-108): on an `ast.Dict`,
walk the zipped entries; any other node yields the empty dict. -/
def extract_dict_from_ast : PyExpr → Except String PyVal
  | .dict ks vs => do
    let entries ← edfaEntries ks vs
    Except.ok (.dict entries)
  | _ => Except.ok (.dict [])

/-- Entry loop of `extract_dict_from_ast`: a non-constant key skips the
entry; a dict value recurses, a list value uses the comprehension, a
constant value is taken, and any other value shape skips the entry. -/
def edfaEntries : List PyExpr → List PyExpr → Except String (List (PyConst × PyVal))
  | k :: ks, v :: vs =>
    match k with
    | .const kc =>
      match v with
      | .dict dks dvs => do
        let sub ← extract_dict_from_ast (.dict dks dvs)
        let rest ← edfaEntries ks vs
        Except.ok ((kc, sub) :: rest)
      | .list elts => do
        let lv ← extractListVals elts
        let rest ← edfaEntries ks vs
        Except.ok ((kc, .list lv) :: rest)
      | .const c => do
        let rest ← edfaEntries ks vs
        Except.ok ((kc, constToVal c) :: rest)
      | .name _ => edfaEntries ks vs
    | _ => edfaEntries ks vs
  | _, _ => Except.ok []

end

/-- `str(node)` on a non-string AST node inside `extract_tags`: CPython
renders the node's type and address; the text is opaque to the scanner and
modelled by a fixed rendering. -/
def pyStrRepr (e : PyExpr) : String := "<ast object>"

/-- `extract_tags` (`tools/ops.py` lines 165-173): the `tags` keyword's AST
node, when it is an `ast.List`, becomes a Python list taking `.s` of string
constants and `str(elt)` of anything else; a missing keyword defaults to the
empty Python list `[]`; any other node shape is not a Python `list` and the
final guard returns `[]`. -/
def extract_tags (opKwargs : List (String × PyExpr)) : List String :=
  match dictGet opKwargs "tags" with
  | some e =>
    match e with
    | .list elts =>
      elts.map (fun elt =>
        match elt with
        | .const (.str s) => s
        | _ => pyStrRepr elt)
    | _ => []
  | none => []

/-- `str.upper()` over the characters (the method names are ASCII). -/
def pyUpper (s : String) : String := String.mk (s.data.map Char.toUpper)

/-- The pydantic `method` validator of `OperationModel` (lines 71-76):
uppercase the value and require membership in the allowed set, else a
`ValidationError`. -/
def validate_method (m : String) : Except String String :=
  if pyUpper m ∈ ["GET", "POST", "PUT", "DELETE", "PATCH"] then Except.ok (pyUpper m)
  else Except.error "ValidationError: method"

/-- A decorator as the scanner sees it: `call fid kws` is an `ast.Call`
with `fid = getattr(decorator.func, "id", None)` (so `none` for attribute
or computed callees) and its keyword arguments in source order; `other` is
any non-call decorator. -/
inductive PyDecorator where
  | call (funcId : Option String) (keywords : List (String × PyExpr))
  | other

/-- Processing of one decorator inside `extract_ops_from_file`
(lines 189-242).  `Except.ok none`: not a recognized marker call, not
qualified, or dropped by the inner `except ValidationError` handler.
`Except.error`: an exception that escapes to the per-node handler (KeyError
from `op_kwargs["params"]` at line 201 when only `parameters` was given,
or AttributeError from a `.s` access / `extract_dict` / the parameters
comprehension).  Source evaluation order is preserved: the params dict,
the params list, the parameters extraction (whose result pydantic silently
drops: `OperationModel` has no `parameters` field), then the constructor
arguments' `.s` accesses, then pydantic validation. -/
def tryDecorator : PyDecorator → Except String (Option OperationModel)
  | .other => Except.ok none
  | .call funcId kws =>
    if funcId = some "op" ∨ funcId = some "vop" then
      let opKwargs := pyDict kws
      if (dictGet opKwargs "path").isSome ∧ (dictGet opKwargs "name").isSome
          ∧ (dictGet opKwargs "description").isSome
          ∧ ((dictGet opKwargs "params").isSome ∨ (dictGet opKwargs "parameters").isSome) then
        do
          let paramsExpr ← match dictGet opKwargs "params" with
            | some e => Except.ok e
            | none => (Except.error "KeyError: params" : Except String PyExpr)
          let paramsDict ← extract_dict paramsExpr
          let params : List ParamModel :=
            if (dictGet opKwargs "params").isSome then
              paramsDict.map (fun kv => { description := kv.snd, name := kv.fst })
            else []
          let _parameters ← extract_dict_from_ast
            ((dictGet opKwargs "parameters").getD (.dict [] []))
          let descriptionS ← match dictGet opKwargs "description" with
            | some e => sAttr e
            | none => (Except.error "KeyError: description" : Except String String)
          let nameS ← match dictGet opKwargs "name" with
            | some e => sAttr e
            | none => (Except.error "KeyError: name" : Except String String)
          let methodS ← match dictGet opKwargs "method" with
            | some e => sAttr e
            | none => Except.ok "POST"
          let urlS ← match dictGet opKwargs "path" with
            | some e => sAttr e
            | none => (Except.error "KeyError: path" : Except String String)
          let tags := extract_tags opKwargs
          match validate_method methodS with
          | Except.ok m =>
            Except.ok (some
              { description := descriptionS, id := nameS,
                includeAccessToken := true, method := m, name := nameS, tags := tags,
                params := params, type := "custom", url := urlS })
          | Except.error _ => Except.ok none
      else Except.ok none
    else Except.ok none

/-- A function definition node as found by `ast.walk`. -/
structure PyFunctionDef where
  name : String
  decorator_list : List PyDecorator

/-- The decorator loop for one function node.  The per-node `try` wraps the
whole loop: an escaping exception abandons the node's remaining decorators
(records appended earlier in the walk are kept). -/
def processDecorators : List PyDecorator → List OperationModel
  | [] => []
  | d :: rest =>
    match tryDecorator d with
    | Except.ok none => processDecorators rest
    | Except.ok (some m) => m :: processDecorators rest
    | Except.error _ => []

/-- `extract_ops_from_file` (lines 176-250) over an already-parsed tree:
the function-definition nodes in walk order.  (File IO and `ast.parse` are
outside the embedding; an unparseable file yields `[]` before this loop.)
Each node is processed under its own handler, so one node's failure never
drops another node's records. -/
def extract_ops_from_file (tree : List PyFunctionDef) : List OperationModel :=
  tree.foldl (fun acc fd => acc ++ processDecorators fd.decorator_list) []

/-! ## Characterization helpers and concrete inputs -/

/-- Pointwise effect of one `deleteTag` step on the touched key: filter by
the exact-triple test; an unchanged list is left as is, an emptied list
deletes the item. -/
def delPart (ref : Op) : Option (List Op) → Option (List Op)
  | some l =>
    let filtered := l.filter (fun e => !(tripleMatches e ref))
    if filtered.length ≠ l.length then
      if filtered.isEmpty then none else some filtered
    else some l
  | none => none

/-- The empty store. -/
def emptyStore : Store := fun _ _ => none

/-- The empty tools-side store. -/
def emptyStoreT : StoreT := fun _ _ => none

/-- Concrete raw record with two declared tags. -/
def demoOp1 : Op :=
  { id := "op1", name := "Echo", description := "d", method := "POST", url := "/echo",
    tags := some ["x", "y"], includeAccessToken := false }

/-- A stale stored record sharing `demoOp2`'s id. -/
def demoOld2 : Op :=
  { id := "op2", name := "OldEcho", description := "old", method := "GET", url := "/old",
    tags := some ["x"], includeAccessToken := true }

/-- Concrete raw record (one declared tag) used against `demoStore2`. -/
def demoOp2 : Op :=
  { id := "op2", name := "Echo", description := "new", method := "POST", url := "/echo",
    tags := some ["x"], includeAccessToken := false }

/-- A store whose ("alice", "x") partition already holds `demoOld2`. -/
def demoStore2 : Store :=
  fun o t => if o = "alice" ∧ t = "x" then some [demoOld2] else none

/-- Delete reference: id "op4", name "Echo", url "/echo", tags ["x"]. -/
def demoRef4 : Op :=
  { id := "op4", name := "Echo", description := "", method := "POST", url := "/echo",
    tags := some ["x"], includeAccessToken := true }

/-- Stored record matching `demoRef4` on all of (id, name, url). -/
def demoMatch4 : Op :=
  { id := "op4", name := "Echo", description := "d", method := "POST", url := "/echo",
    tags := some ["x"], includeAccessToken := true }

/-- Stored record matching `demoRef4` on id and name but not url. -/
def demoKeep4 : Op :=
  { id := "op4", name := "Echo", description := "d", method := "POST", url := "/other",
    tags := some ["x"], includeAccessToken := true }

/-- A store whose ("system", "x") partition holds both records above. -/
def demoStore4 : Store :=
  fun o t => if o = "system" ∧ t = "x" then some [demoMatch4, demoKeep4] else none

/-- A record owned by a plain user, for the fetch example. -/
def demoOp5 : Op :=
  { id := "op5", name := "Mine", description := "m", method := "POST", url := "/mine",
    tags := some ["default"], includeAccessToken := true }

/-- A query whose system partition lookup always throws and whose other
partitions hold exactly `[demoOp5]`. -/
def demoQuery5 : String → String → Except String (List Op) :=
  fun o _ => if o = "system" then Except.error "down" else Except.ok [demoOp5]

/-- Dumped model record registered twice in the C6 scenario. -/
def demoOp6 : OperationModel :=
  { description := "d", id := "op6", includeAccessToken := true, method := "POST",
    name := "Echo", tags := ["default"], params := [], type := "custom", url := "/echo" }

/-- Keyword arguments of a marker call that supplies `parameters` but no
flat `params` mapping. -/
def demoKws7 : List (String × PyExpr) :=
  [("path", PyExpr.const (PyConst.str "/items")),
   ("name", PyExpr.const (PyConst.str "listItems")),
   ("description", PyExpr.const (PyConst.str "List items")),
   ("parameters", PyExpr.dict [PyExpr.const (PyConst.str "type")]
      [PyExpr.const (PyConst.str "object")])]

/-- The decorator `@op(path=..., name=..., description=..., parameters={...})`. -/
def demoDec7 : PyDecorator := PyDecorator.call (some "op") demoKws7

/-- A function carrying only `demoDec7`. -/
def demoFd7 : PyFunctionDef := { name := "list_items", decorator_list := [demoDec7] }

/-- Keyword arguments of a qualifying marker call with no `tags` keyword. -/
def demoKws8 : List (String × PyExpr) :=
  [("path", PyExpr.const (PyConst.str "/echo")),
   ("name", PyExpr.const (PyConst.str "echoOp")),
   ("description", PyExpr.const (PyConst.str "Echo")),
   ("params", PyExpr.dict [PyExpr.const (PyConst.str "msg")]
      [PyExpr.const (PyConst.str "The message")])]

/-- A function decorated with the qualifying, tag-less marker call. -/
def demoFd8 : PyFunctionDef :=
  { name := "echo", decorator_list := [PyDecorator.call (some "op") demoKws8] }

/-- The record the scanner produces for `demoFd8`. -/
def demoRec8 : OperationModel :=
  { description := "Echo", id := "echoOp", includeAccessToken := true, method := "POST",
    name := "echoOp", tags := [], params := [{ description := "The message", name := "msg" }],
    type := "custom", url := "/echo" }

/-- Raw record for the endpoint frame example. -/
def demoOp9 : Op :=
  { id := "op9", name := "Sys", description := "s", method := "POST", url := "/sys",
    tags := some ["x"], includeAccessToken := true }

/-- Delete reference for the endpoint frame example. -/
def demoRef9 : Op :=
  { id := "op9", name := "Sys", description := "", method := "POST", url := "/sys",
    tags := some ["x"], includeAccessToken := true }

/-- A store holding a partition for user "bob", untouched by the system-only
endpoints. -/
def demoStore9 : Store :=
  fun o t => if o = "bob" ∧ t = "default" then some [demoOp5] else none

/-- Marker call keywords for the first of two declarations sharing a name. -/
def demoKws10a : List (String × PyExpr) :=
  [("path", PyExpr.const (PyConst.str "/a")),
   ("name", PyExpr.const (PyConst.str "dupOp")),
   ("description", PyExpr.const (PyConst.str "first")),
   ("params", PyExpr.dict [] [])]

/-- Marker call keywords for the second declaration sharing the name. -/
def demoKws10b : List (String × PyExpr) :=
  [("path", PyExpr.const (PyConst.str "/b")),
   ("name", PyExpr.const (PyConst.str "dupOp")),
   ("description", PyExpr.const (PyConst.str "second")),
   ("params", PyExpr.dict [] [])]

/-- Two function definitions whose marker calls share the `name` keyword
(one through each accepted marker spelling). -/
def demoTree10 : List PyFunctionDef :=
  [{ name := "fa", decorator_list := [PyDecorator.call (some "op") demoKws10a] },
   { name := "fb", decorator_list := [PyDecorator.call (some "vop") demoKws10b] }]

/-- The record scanned from the first declaration. -/
def demoRecA10 : OperationModel :=
  { description := "first", id := "dupOp", includeAccessToken := true, method := "POST",
    name := "dupOp", tags := [], params := [], type := "custom", url := "/a" }

/-- The record scanned from the second declaration. -/
def demoRecB10 : OperationModel :=
  { description := "second", id := "dupOp", includeAccessToken := true, method := "POST",
    name := "dupOp", tags := [], params := [], type := "custom", url := "/b" }

/-! ## Lemmas about the partition fanout -/

/-- A fold of key-local, idempotent partition updates, read back pointwise:
the touched keys are exactly (owner, t) for t in the folded list, and each
holds one application of the update to its original content. -/
theorem foldl_localUpdate (owner : String) (f : Option (List Op) → Option (List Op))
    (step : Store → String → Store)
    (hstep : ∀ (s : Store) (t o' t' : String),
      step s t o' t' = if o' = owner ∧ t' = t then f (s owner t) else s o' t')
    (hidem : ∀ x, f (f x) = f x) :
    ∀ (ts : List String) (s : Store) (o' t' : String),
      (ts.foldl step s) o' t' =
        if o' = owner ∧ t' ∈ ts then f (s owner t') else s o' t' := by
  intro ts
  induction ts with
  | nil => intro s o' t'; simp
  | cons t rest ih =>
    intro s o' t'
    rw [List.foldl_cons, ih]
    by_cases ho : o' = owner
    · subst ho
      by_cases ht : t' = t
      · subst ht
        by_cases hr : t' ∈ rest
        · simp [hr, hstep, hidem]
        · simp [hr, hstep]
      · by_cases hr : t' ∈ rest
        · simp [hr, ht, hstep, List.mem_cons]
        · simp [hr, ht, hstep, List.mem_cons]
    · simp [ho, hstep]

/-- Pointwise reading of one `upsertTag` step. -/
theorem upsertTag_apply (owner tag : String) (p : Op) (s : Store) (o' t' : String) :
    upsertTag owner tag p s o' t' =
      if o' = owner ∧ t' = tag then some (upsertList p ((s owner tag).getD []))
      else s o' t' := by
  unfold upsertTag
  cases h : s owner tag with
  | some l => simp [setPart, h]
  | none => simp [setPart, h, upsertList]

/-- Replacing-or-appending the same record twice is the same as once. -/
theorem upsertList_idem (p : Op) (l : List Op) :
    upsertList p (upsertList p l) = upsertList p l := by
  induction l with
  | nil => simp [upsertList]
  | cons e rest ih =>
    by_cases h : e.id = p.id
    · simp [upsertList, h]
    · simp [upsertList, h, ih]

/-- The upserted record is a member of the updated list. -/
theorem mem_upsertList (p : Op) (l : List Op) : p ∈ upsertList p l := by
  induction l with
  | nil => simp [upsertList]
  | cons e rest ih =>
    by_cases h : e.id = p.id <;> simp [upsertList, h, ih]

/-- When some entry already carries the record's id, the upsert is an
in-place `set` at the first matching index. -/
theorem upsertList_replace (p : Op) (l : List Op) (h : ∃ e ∈ l, e.id = p.id) :
    ∃ i e, l[i]? = some e ∧ e.id = p.id ∧ upsertList p l = l.set i p := by
  induction l with
  | nil => simp at h
  | cons a rest ih =>
    by_cases ha : a.id = p.id
    · refine ⟨0, a, by simp, ha, ?_⟩
      simp [upsertList, ha]
    · obtain ⟨e, he, hid⟩ := h
      rcases List.mem_cons.mp he with rfl | hmem
      · exact absurd hid ha
      · obtain ⟨i, e', hget, hid', hset⟩ := ih ⟨e, hmem, hid⟩
        refine ⟨i + 1, e', ?_, hid', ?_⟩
        · simpa using hget
        · simp [upsertList, ha, hset]

/-- When some entry already carries the record's id, the upsert does not
change the list's length. -/
theorem upsertList_length_of_mem (p : Op) (l : List Op) (h : ∃ e ∈ l, e.id = p.id) :
    (upsertList p l).length = l.length := by
  obtain ⟨i, e, _, _, hset⟩ := upsertList_replace p l h
  rw [hset, List.length_set]

/-- `processOp` keeps the record's id. -/
theorem processOp_id (r : Op) : (processOp r).id = r.id := rfl

/-- Pointwise reading of a whole `upsertRecord` fanout. -/
theorem upsertRecord_apply (owner : String) (r : Op) (s : Store) (o' t' : String) :
    upsertRecord owner r s o' t' =
      if o' = owner ∧ t' ∈ opTags r then
        some (upsertList (processOp r) ((s owner t').getD []))
      else s o' t' := by
  unfold upsertRecord
  exact foldl_localUpdate owner (fun x => some (upsertList (processOp r) (x.getD [])))
    (fun acc t => upsertTag owner t (processOp r) acc)
    (fun s t o' t' => upsertTag_apply owner t (processOp r) s o' t')
    (fun x => by simp [upsertList_idem])
    (opTags r) s o' t'

/-- C1: for every owner and validated record with a non-empty declared tag
list, after `upsert(owner, record)` a record with that record's id and its
written field values is present in the (owner, tag) partition for every
declared tag and in the (owner, "all") partition. -/
theorem upsert_fanout_complete (owner : String) (r : Op) (s : Store) (ts : List String)
    (htags : r.tags = some ts) (hne : ts ≠ []) (t : String) (ht : t ∈ ts ∨ t = "all") :
    ∃ l, upsertRecord owner r s owner t = some l ∧
      ∃ q, q ∈ l ∧ q = processOp r ∧ q.id = r.id := by
  have htmem : t ∈ opTags r := by
    unfold opTags
    rw [htags]
    rcases ht with h | h
    · exact List.mem_append.mpr (Or.inl h)
    · subst h; simp
  rw [upsertRecord_apply, if_pos ⟨rfl, htmem⟩]
  exact ⟨_, rfl, processOp r, mem_upsertList _ _, rfl, rfl⟩

/-- Witness for C1 at a concrete owner, record and empty store. -/
theorem upsert_fanout_complete_witness :
    ∃ l, upsertRecord "alice" demoOp1 emptyStore "alice" "x" = some l ∧
      ∃ q, q ∈ l ∧ q = processOp demoOp1 ∧ q.id = demoOp1.id :=
  upsert_fanout_complete "alice" demoOp1 emptyStore ["x", "y"] rfl (by decide) "x"
    (Or.inl (by decide))

/-- C2: a partition that already contains an entry with the upserted
record's id is updated by an in-place replacement at the existing position,
so its length does not grow. -/
theorem upsert_replace_not_duplicate (owner : String) (r : Op) (s : Store) (t : String)
    (l : List Op) (hl : s owner t = some l) (hid : ∃ e ∈ l, e.id = r.id) :
    ∃ l', upsertRecord owner r s owner t = some l' ∧ l'.length ≤ l.length ∧
      (t ∈ opTags r →
        ∃ i e, l[i]? = some e ∧ e.id = r.id ∧ l' = l.set i (processOp r)) := by
  rw [upsertRecord_apply]
  by_cases ht : t ∈ opTags r
  · rw [if_pos ⟨rfl, ht⟩, hl]
    have hid' : ∃ e ∈ l, e.id = (processOp r).id := by
      simpa [processOp_id] using hid
    obtain ⟨i, e, hget, hide, hset⟩ := upsertList_replace (processOp r) l hid'
    refine ⟨upsertList (processOp r) ((some l : Option (List Op)).getD []), rfl, ?_, ?_⟩
    · simp only [Option.getD_some]
      rw [hset, List.length_set]
    · intro _
      exact ⟨i, e, hget, by simpa [processOp_id] using hide, by simpa using hset⟩
  · rw [if_neg (fun hc => ht hc.2), hl]
    exact ⟨l, rfl, le_refl _, fun h => absurd h ht⟩

/-- Witness for C2: a store already holding a record with the same id. -/
theorem upsert_replace_not_duplicate_witness :
    ∃ l', upsertRecord "alice" demoOp2 demoStore2 "alice" "x" = some l' ∧
      l'.length ≤ [demoOld2].length ∧
      ("x" ∈ opTags demoOp2 →
        ∃ i e, [demoOld2][i]? = some e ∧ e.id = demoOp2.id ∧
          l' = [demoOld2].set i (processOp demoOp2)) :=
  upsert_replace_not_duplicate "alice" demoOp2 demoStore2 "x" [demoOld2] (by decide)
    (by decide)

/-- C3: upserting the identical record twice leaves every partition with
exactly the contents a single upsert produces. -/
theorem upsert_idempotent (owner : String) (r : Op) (s : Store) (o' t' : String) :
    upsertRecord owner r (upsertRecord owner r s) o' t' = upsertRecord owner r s o' t' := by
  have h1 := upsertRecord_apply owner r (upsertRecord owner r s) o' t'
  have h2 := upsertRecord_apply owner r s o' t'
  by_cases hc : o' = owner ∧ t' ∈ opTags r
  · simp only [h1, h2, if_pos hc]
    rw [upsertRecord_apply owner r s owner t', if_pos ⟨rfl, hc.2⟩]
    simp [upsertList_idem]
  · simp only [h1, h2, if_neg hc]

/-! ## Lemmas about delete and fetch -/

/-- A filter whose result keeps the original length removed nothing. -/
theorem filter_of_length_eq {α : Type} (p : α → Bool) (l : List α)
    (h : (l.filter p).length = l.length) : l.filter p = l :=
  List.filter_eq_self.mpr (List.filter_length_eq_length.mp h)

/-- Filtering twice with the same predicate filters once. -/
theorem filter_idem {α : Type} (p : α → Bool) (l : List α) :
    (l.filter p).filter p = l.filter p :=
  List.filter_eq_self.mpr (fun a ha => List.of_mem_filter ha)

/-- Pointwise reading of one `deleteTag` step. -/
theorem deleteTag_apply (owner tag : String) (ref : Op) (s : Store) (o' t' : String) :
    deleteTag owner tag ref s o' t' =
      if o' = owner ∧ t' = tag then delPart ref (s owner tag) else s o' t' := by
  cases h : s owner tag with
  | none =>
    by_cases hc : o' = owner ∧ t' = tag
    · obtain ⟨h1, h2⟩ := hc
      subst h1; subst h2
      simp [deleteTag, delPart, h]
    · simp [deleteTag, delPart, h, hc]
  | some l =>
    by_cases hc : o' = owner ∧ t' = tag
    · obtain ⟨h1, h2⟩ := hc
      subst h1; subst h2
      by_cases hd : (l.filter (fun e => !(tripleMatches e ref))).length ≠ l.length
      · by_cases he : (l.filter (fun e => !(tripleMatches e ref))).isEmpty
        · simp [deleteTag, delPart, setPart, h, hd, he]
        · simp [deleteTag, delPart, setPart, h, hd, he]
      · simp [deleteTag, delPart, h, hd]
    · by_cases hd : (l.filter (fun e => !(tripleMatches e ref))).length ≠ l.length
      · by_cases he : (l.filter (fun e => !(tripleMatches e ref))).isEmpty
        · simp [deleteTag, delPart, setPart, h, hd, he, hc]
        · simp [deleteTag, delPart, setPart, h, hd, he, hc]
      · simp [deleteTag, delPart, h, hd, hc]

/-- `delPart` is idempotent. -/
theorem delPart_idem (ref : Op) (x : Option (List Op)) :
    delPart ref (delPart ref x) = delPart ref x := by
  cases x with
  | none => rfl
  | some l =>
    by_cases hd : (l.filter (fun e => !(tripleMatches e ref))).length ≠ l.length
    · by_cases he : (l.filter (fun e => !(tripleMatches e ref))).isEmpty
      · simp [delPart, hd, he]
      · simp [delPart, hd, he, filter_idem]
    · simp [delPart, hd]

/-- Read back through the empty default, `delPart` on a stored list is the
exact-triple filter. -/
theorem delPart_some_getD (ref : Op) (l : List Op) :
    (delPart ref (some l)).getD [] = l.filter (fun e => !(tripleMatches e ref)) := by
  by_cases hdirty : (l.filter (fun e => !(tripleMatches e ref))).length ≠ l.length
  · by_cases hemp : (l.filter (fun e => !(tripleMatches e ref))).isEmpty
    · have hfe := List.isEmpty_iff.mp hemp
      simp only [hfe] at hdirty
      have h0 : (0 : Nat) ≠ l.length := by simpa using hdirty
      simp [delPart, hfe, h0]
    · simp [delPart, hdirty, hemp]
  · push_neg at hdirty
    simp [delPart, hdirty, filter_of_length_eq _ l hdirty]

/-- Pointwise reading of the whole `delete_op` fanout. -/
theorem delete_fold_apply (ref : Op) (ts : List String) (s : Store) (o' t' : String) :
    ((effTags ts).foldl (fun acc t => deleteTag "system" t ref acc) s) o' t' =
      if o' = "system" ∧ t' ∈ effTags ts then delPart ref (s "system" t') else s o' t' :=
  foldl_localUpdate "system" (delPart ref)
    (fun acc t => deleteTag "system" t ref acc)
    (fun s t o' t' => deleteTag_apply "system" t ref s o' t')
    (delPart_idem ref) (effTags ts) s o' t'

/-- C4: on every partition in the reference's effective tag set, delete
keeps exactly the records that do not match the reference on all three of
(id, name, url); a record sharing the id but not the url survives. -/
theorem delete_triple_precision (ref : Op) (ts : List String) (s : Store)
    (href : ref.tags = some ts) (t : String) (ht : t ∈ effTags ts)
    (l : List Op) (hl : s "system" t = some l) :
    ∃ s₂, delete_op ref s = Except.ok s₂ ∧
      (s₂ "system" t).getD [] = l.filter (fun e => !(tripleMatches e ref)) ∧
      ∀ e ∈ l, e.id = ref.id → e.url ≠ ref.url → e ∈ (s₂ "system" t).getD [] := by
  have hd : delete_op ref s =
      Except.ok ((effTags ts).foldl (fun acc t => deleteTag "system" t ref acc) s) := by
    unfold delete_op
    rw [href]
  refine ⟨_, hd, ?_, ?_⟩
  · rw [delete_fold_apply, if_pos ⟨rfl, ht⟩, hl, delPart_some_getD]
  · intro e hel hid hurl
    have hkeep : (!(tripleMatches e ref)) = true := by
      simp [tripleMatches, hurl]
    rw [delete_fold_apply, if_pos ⟨rfl, ht⟩, hl, delPart_some_getD]
    exact List.mem_filter.mpr ⟨hel, hkeep⟩

/-- Witness for C4: the exact-triple record is removed, the id-only match
survives. -/
theorem delete_triple_precision_witness :
    ∃ s₂, delete_op demoRef4 demoStore4 = Except.ok s₂ ∧
      (s₂ "system" "x").getD [] =
        [demoMatch4, demoKeep4].filter (fun e => !(tripleMatches e demoRef4)) ∧
      ∀ e ∈ [demoMatch4, demoKeep4], e.id = demoRef4.id → e.url ≠ demoRef4.url →
        e ∈ (s₂ "system" "x").getD [] :=
  delete_triple_precision demoRef4 ["x"] demoStore4 rfl "x" (by decide)
    [demoMatch4, demoKeep4] (by decide)

/-- C9: the write and delete endpoints ignore `current_user` and only
modify partitions of owner "system"; every other owner's partitions are
unchanged. -/
theorem ops_endpoints_system_only (cu cu' : String) (ops : List Op) (ref : Op)
    (s : Store) (o' t' : String) (h : o' ≠ "system") :
    write_ops_endpoint cu ops s = write_ops_endpoint cu' ops s ∧
    write_ops_endpoint cu ops s o' t' = s o' t' ∧
    delete_op_endpoint cu ref s = delete_op_endpoint cu' ref s ∧
    (∀ s₂, delete_op_endpoint cu ref s = Except.ok s₂ → s₂ o' t' = s o' t') := by
  refine ⟨rfl, ?_, rfl, ?_⟩
  · induction ops generalizing s with
    | nil => rfl
    | cons op rest ih =>
      have hstep : write_ops_endpoint cu (op :: rest) s =
          write_ops_endpoint cu rest (upsertRecord "system" op s) := rfl
      rw [hstep, ih (upsertRecord "system" op s), upsertRecord_apply,
        if_neg (fun hc => h hc.1)]
  · intro s₂ hs₂
    unfold delete_op_endpoint delete_op at hs₂
    cases htags : ref.tags with
    | none => rw [htags] at hs₂; cases hs₂
    | some ts =>
      rw [htags] at hs₂
      injection hs₂ with hfold
      rw [← hfold, delete_fold_apply, if_neg (fun hc => h hc.1)]

/-- Witness for C9: the endpoints leave "bob"'s partition untouched. -/
theorem ops_endpoints_system_only_witness :
    write_ops_endpoint "alice" [demoOp9] demoStore9 "bob" "default" =
      demoStore9 "bob" "default" :=
  (ops_endpoints_system_only "alice" "carol" [demoOp9] demoRef9 demoStore9 "bob"
    "default" (by decide)).2.1

/-- C5: for a non-system owner, fetch returns the owner's records followed
by the system partition's records, and an error raised by the system
lookup is swallowed, leaving exactly the owner's own records. -/
theorem fetch_fallback_union (query : String → String → Except String (List Op))
    (u t : String) (own : List Op) (hu : u ≠ "system")
    (hown : query u t = Except.ok own) :
    (∀ sys, query "system" t = Except.ok sys →
      fetch_user_ops query u t = Except.ok (own ++ sys)) ∧
    (∀ e, query "system" t = Except.error e →
      fetch_user_ops query u t = Except.ok own) := by
  have hsysFetch : fetch_user_ops query "system" t = query "system" t := by
    rw [fetch_user_ops]
    cases hq : query "system" t with
    | error e => rfl
    | ok sys => simp
  constructor
  · intro sys hsys
    rw [fetch_user_ops, hown, hsysFetch, hsys]
    simp [hu]
  · intro e hsys
    rw [fetch_user_ops, hown, hsysFetch, hsys]
    simp [hu]

/-- Witness for C5: the system partition lookup throws, and "alice" still
receives exactly her own records. -/
theorem fetch_fallback_union_witness :
    fetch_user_ops demoQuery5 "alice" "default" = Except.ok [demoOp5] :=
  (fetch_fallback_union demoQuery5 "alice" "default" [demoOp5] (by decide) rfl).2
    "down" rfl

/-! ## The tools write path and the scanner -/

/-- C6 (failing input): registering a record via `tools/ops.py write_ops`
succeeds on an empty table, but re-registering the identical record hits the
id-match update path, whose `json.dumps` call raises `NameError` because
`json` is never imported — instead of completing as a pure overwrite. -/
theorem write_ops_tools_reupsert_raises :
    (write_ops_tools "system" [demoOp6] emptyStoreT).toOption.isSome = true ∧
    (write_ops_tools "system" [demoOp6] emptyStoreT >>=
        write_ops_tools "system" [demoOp6]) =
      Except.error "NameError: name json is not defined" :=
  ⟨rfl, rfl⟩

/-- C7 (failing input): the marker call supplies `description`, `name`,
`path` and a nested `parameters` structure, so it passes the qualification
test, but line 201's unconditional `op_kwargs["params"]` raises `KeyError`
and the per-node handler drops the candidate: the scan output is empty. -/
theorem scanner_parameters_only_dropped :
    ((dictGet (pyDict demoKws7) "path").isSome ∧ (dictGet (pyDict demoKws7) "name").isSome
      ∧ (dictGet (pyDict demoKws7) "description").isSome
      ∧ ((dictGet (pyDict demoKws7) "params").isSome
          ∨ (dictGet (pyDict demoKws7) "parameters").isSome)) ∧
    tryDecorator demoDec7 = Except.error "KeyError: params" ∧
    extract_ops_from_file [demoFd7] = [] :=
  ⟨by decide, rfl, rfl⟩

/-- A missing `tags` keyword makes `extract_tags` return the empty list. -/
theorem extract_tags_eq_nil (d : List (String × PyExpr))
    (h : dictGet d "tags" = none) : extract_tags d = [] := by
  unfold extract_tags
  rw [h]

/-- Every record a recognized marker call yields has its `id` copied from
the `name` keyword and its `tags` from `extract_tags`. -/
theorem tryDecorator_ok_shape (funcId : Option String) (kws : List (String × PyExpr))
    (m : OperationModel)
    (h : tryDecorator (PyDecorator.call funcId kws) = Except.ok (some m)) :
    m.id = m.name ∧ m.tags = extract_tags (pyDict kws) := by
  unfold tryDecorator at h
  simp only [bind, Except.bind] at h
  repeat' split at h
  all_goals first
    | (cases h; exact ⟨rfl, rfl⟩)
    | simp_all

/-- Every record a decorator yields has `id = name`. -/
theorem tryDecorator_id_name (d : PyDecorator) (m : OperationModel)
    (h : tryDecorator d = Except.ok (some m)) : m.id = m.name := by
  cases d with
  | other => simp [tryDecorator] at h
  | call funcId kws => exact (tryDecorator_ok_shape funcId kws m h).1

/-- Every record in a function's decorator output comes from one of its
decorators. -/
theorem mem_processDecorators (ds : List PyDecorator) (m : OperationModel)
    (h : m ∈ processDecorators ds) : ∃ d, tryDecorator d = Except.ok (some m) := by
  induction ds with
  | nil => simp [processDecorators] at h
  | cons d rest ih =>
    unfold processDecorators at h
    split at h
    · exact ih h
    · next m' heq =>
        rcases List.mem_cons.mp h with rfl | h2
        · exact ⟨d, heq⟩
        · exact ih h2
    · simp at h

/-- Every record the scan emits comes from some decorator. -/
theorem mem_extract_ops (tree : List PyFunctionDef) (m : OperationModel)
    (h : m ∈ extract_ops_from_file tree) :
    ∃ d, tryDecorator d = Except.ok (some m) := by
  unfold extract_ops_from_file at h
  have H : ∀ (fds : List PyFunctionDef) (acc : List OperationModel),
      m ∈ fds.foldl (fun acc fd => acc ++ processDecorators fd.decorator_list) acc →
      m ∈ acc ∨ ∃ d, tryDecorator d = Except.ok (some m) := by
    intro fds
    induction fds with
    | nil => intro acc hm; exact Or.inl hm
    | cons fd rest ih =>
      intro acc hm
      rcases ih (acc ++ processDecorators fd.decorator_list) hm with hm' | hd
      · rcases List.mem_append.mp hm' with h1 | h2
        · exact Or.inl h1
        · exact Or.inr (mem_processDecorators _ _ h2)
      · exact Or.inr hd
  rcases H tree [] h with h' | h'
  · simp at h'
  · exact h'

/-- C8 (counterexample): a qualifying marker call with no `tags` keyword
produces a record whose tags list is empty, not `["default"]`. -/
theorem scanner_omitted_tags_counterexample :
    dictGet (pyDict demoKws8) "tags" = none ∧
    extract_ops_from_file [demoFd8] = [demoRec8] ∧
    demoRec8.tags = [] ∧ demoRec8.tags ≠ ["default"] :=
  ⟨rfl, rfl, rfl, by decide⟩

/-- C8 (amended): for every qualifying declaration whose marker call omits
the `tags` keyword, the scanner produces a record whose tags field equals
the empty list. -/
theorem scanner_omitted_tags_empty (funcId : Option String)
    (kws : List (String × PyExpr)) (m : OperationModel)
    (htags : dictGet (pyDict kws) "tags" = none)
    (h : tryDecorator (PyDecorator.call funcId kws) = Except.ok (some m)) :
    m.tags = [] := by
  rw [(tryDecorator_ok_shape funcId kws m h).2, extract_tags_eq_nil _ htags]

/-- Witness for the amended C8 at the concrete tag-less declaration. -/
theorem scanner_omitted_tags_empty_witness : demoRec8.tags = [] :=
  scanner_omitted_tags_empty (some "op") demoKws8 demoRec8 rfl rfl

/-- C10: every scanned record has `id` equal to `name`; two scanned records
sharing a name share an id, and upserting the second after the first into
any partition replaces rather than grows it. -/
theorem scanner_id_eq_name (tree : List PyFunctionDef) (m₁ m₂ : OperationModel)
    (h₁ : m₁ ∈ extract_ops_from_file tree) (h₂ : m₂ ∈ extract_ops_from_file tree)
    (hname : m₁.name = m₂.name) :
    m₁.id = m₁.name ∧ m₁.id = m₂.id ∧
      ∀ l : List Op,
        (upsertList (opmToRaw m₂) (upsertList (opmToRaw m₁) l)).length =
          (upsertList (opmToRaw m₁) l).length := by
  obtain ⟨d₁, hd₁⟩ := mem_extract_ops tree m₁ h₁
  obtain ⟨d₂, hd₂⟩ := mem_extract_ops tree m₂ h₂
  have e₁ := tryDecorator_id_name d₁ m₁ hd₁
  have e₂ := tryDecorator_id_name d₂ m₂ hd₂
  have hid : m₁.id = m₂.id := by rw [e₁, e₂, hname]
  refine ⟨e₁, hid, ?_⟩
  intro l
  apply upsertList_length_of_mem
  exact ⟨opmToRaw m₁, mem_upsertList _ _, hid⟩

/-- Witness for C10 on the two concrete declarations sharing a name. -/
theorem scanner_id_eq_name_witness :
    demoRecA10.id = demoRecA10.name ∧
      (upsertList (opmToRaw demoRecB10) (upsertList (opmToRaw demoRecA10) [])).length =
        (upsertList (opmToRaw demoRecA10) []).length :=
  ⟨(scanner_id_eq_name demoTree10 demoRecA10 demoRecB10 (by decide) (by decide) rfl).1,
   (scanner_id_eq_name demoTree10 demoRecA10 demoRecB10 (by decide) (by decide) rfl).2.2 []⟩

end OpsRegistry
